import Mathlib

/-!
Verification development for the Neon survey-administration system.

The relational state of the application (PostgreSQL tables accessed from
`database.py`) is embedded shallowly: each table is a list of rows, and each
database-touching Python function becomes a pure Lean function from a `DB`
state to a new state and/or a result.  Timestamps are abstracted to a calendar
day number (`DB.today` plays the role of `CURRENT_DATE`; `NOW()` stores the
current day), which is the granularity the code itself compares at
(`submission_date::date = CURRENT_DATE`).  Serial primary keys are modelled by
the `DB.nextId` counter.
-/

namespace SurveyApp

/-- Row of the `Governorates` table. -/
structure Governorate where
  governorate_id : Nat
  governorate_name : String
  description : String
  deriving DecidableEq, Repr

/-- Row of the `HealthAdministrations` table. -/
structure HealthAdministration where
  admin_id : Nat
  admin_name : String
  governorate_id : Nat
  deriving DecidableEq, Repr

/-- Row of the `Users` table (the columns the modelled operations read). -/
structure UserRow where
  user_id : Nat
  username : String
  role : String
  assigned_region : Option Nat
  deriving DecidableEq, Repr

/-- Row of the `Surveys` table. -/
structure Survey where
  survey_id : Nat
  survey_name : String
  is_active : Bool
  deriving DecidableEq, Repr

/-- Row of the `Survey_Fields` table.  `field_options` holds the serialized
JSON text exactly as the code stores it (`NULL` becomes `none`). -/
structure SurveyField where
  field_id : Nat
  survey_id : Nat
  field_label : String
  field_type : String
  field_options : Option String
  is_required : Bool
  field_order : Nat
  deriving DecidableEq, Repr

/-- Row of the `Responses` table; `submission_date` is the calendar day. -/
structure ResponseRow where
  response_id : Nat
  survey_id : Nat
  user_id : Nat
  region_id : Nat
  is_completed : Bool
  submission_date : Nat
  deriving DecidableEq, Repr

/-- Row of the `Response_Details` table. -/
structure ResponseDetail where
  detail_id : Nat
  response_id : Nat
  field_id : Nat
  answer_value : String
  deriving DecidableEq, Repr

/-- Row of the `AuditLog` table. -/
structure AuditLogEntry where
  user_id : Nat
  action_type : String
  table_name : String
  record_id : Option Nat
  old_value : Option String
  new_value : Option String
  deriving DecidableEq, Repr

/-- The whole database state.  `SurveyGovernorate` rows are
(survey_id, governorate_id) pairs and `UserSurveys` rows are
(user_id, survey_id) pairs, exactly the two columns the code uses. -/
structure DB where
  governorates : List Governorate
  healthAdmins : List HealthAdministration
  users : List UserRow
  surveys : List Survey
  surveyFields : List SurveyField
  surveyGovernorate : List (Nat × Nat)
  userSurveys : List (Nat × Nat)
  responses : List ResponseRow
  responseDetails : List ResponseDetail
  auditLog : List AuditLogEntry
  nextId : Nat
  today : Nat
  deriving DecidableEq, Repr

/-- Value returned by a Streamlit input widget in `render_field`
(`employee_views.py`): a text box yields a string, a number box a number,
a checkbox a boolean, a date picker a date, and an unknown field type yields
Python `None` (`aNone`). -/
inductive Answer where
  | aText (s : String)
  | aNum (n : Int)
  | aBool (b : Bool)
  | aDate (d : Nat)
  | aNone
  deriving DecidableEq, Repr

/-- Python truthiness test applied by `check_required_fields` via
`not answers.get(field_id)`: the empty string, the number 0, `False` and
`None` are falsy; a `date` object is always truthy. -/
def pyFalsy : Answer → Bool
  | Answer.aText s => s == ""
  | Answer.aNum n => n == 0
  | Answer.aBool b => !b
  | Answer.aDate _ => false
  | Answer.aNone => true

/-- Python `str(answer)` as applied by `save_response_details` before
persisting. -/
def pyStr : Answer → String
  | Answer.aText s => s
  | Answer.aNum n => toString n
  | Answer.aBool b => if b then "True" else "False"
  | Answer.aDate d => toString d
  | Answer.aNone => "None"

/-- Python `dict.get` on the submitted answers batch (keyed by field id);
returns `none` when the key is absent. -/
def pyGet (answers : List (Nat × Answer)) (fid : Nat) : Option Answer :=
  (answers.find? (fun p => p.1 == fid)).map (fun p => p.2)

/-- `not answers.get(field_id)` — an absent key gives Python `None`,
which is falsy. -/
def answerMissing (answers : List (Nat × Answer)) (fid : Nat) : Bool :=
  match pyGet answers fid with
  | none => true
  | some a => pyFalsy a

/-- `database.get_allowed_surveys`: the surveys an employee sees on the
dashboard — the SQL join Users → HealthAdministrations (on
`assigned_region = admin_id`) → SurveyGovernorate (on the governorate) →
Surveys, restricted to `is_active = TRUE`. -/
def get_allowed_surveys (db : DB) (uid : Nat) : List (Nat × String) :=
  (db.users.filter (fun u => u.user_id == uid)).flatMap (fun u =>
    (db.healthAdmins.filter (fun ha => u.assigned_region == some ha.admin_id)).flatMap (fun ha =>
      (db.surveyGovernorate.filter (fun sg => sg.2 == ha.governorate_id)).flatMap (fun sg =>
        (db.surveys.filter (fun s => s.survey_id == sg.1 && s.is_active)).map
          (fun s => (s.survey_id, s.survey_name)))))

/-- `database.get_user_allowed_surveys`: the explicit `UserSurveys` grants of
a user, joined to `Surveys` for the name. -/
def get_user_allowed_surveys (db : DB) (uid : Nat) : List (Nat × String) :=
  (db.userSurveys.filter (fun us => us.1 == uid)).flatMap (fun us =>
    (db.surveys.filter (fun s => s.survey_id == us.2)).map
      (fun s => (s.survey_id, s.survey_name)))

/-- `database.update_user_allowed_surveys`: deletes every `UserSurveys` row of
the user, then inserts one row per requested survey id, in order. -/
def update_user_allowed_surveys (db : DB) (uid : Nat) (survey_ids : List Nat) : DB :=
  { db with userSurveys :=
      db.userSurveys.filter (fun us => !(us.1 == uid)) ++
        survey_ids.map (fun sid => (uid, sid)) }

/-- `database.has_completed_survey_today`: is there a completed response of
this user for this survey dated today? -/
def has_completed_survey_today (db : DB) (uid sid : Nat) : Bool :=
  db.responses.any (fun r =>
    r.user_id == uid && r.survey_id == sid && r.is_completed &&
      r.submission_date == db.today)

/-- `database.save_response`: inserts a new `Responses` row stamped with the
current day and returns its fresh id. -/
def save_response (db : DB) (sid uid region : Nat) (is_completed : Bool) :
    DB × Nat :=
  ({ db with
      responses := db.responses ++
        [{ response_id := db.nextId, survey_id := sid, user_id := uid,
           region_id := region, is_completed := is_completed,
           submission_date := db.today }],
      nextId := db.nextId + 1 }, db.nextId)

/-- `employee_views.save_response_details`: one `Response_Details` insert per
answer whose value is not Python `None`, storing `str(answer)`. -/
def save_response_details (db : DB) (rid : Nat)
    (answers : List (Nat × Answer)) : DB :=
  answers.foldl (fun acc p =>
    if p.2 == Answer.aNone then acc
    else { acc with
            responseDetails := acc.responseDetails ++
              [{ detail_id := acc.nextId, response_id := rid,
                 field_id := p.1, answer_value := pyStr p.2 }],
            nextId := acc.nextId + 1 }) db

/-- `employee_views.check_required_fields`: the labels of the required fields
whose submitted answer is Python-falsy or absent, in field order. -/
def check_required_fields (fields : List SurveyField)
    (answers : List (Nat × Answer)) : List String :=
  (fields.filter (fun f => f.is_required && answerMissing answers f.field_id)).map
    (fun f => f.field_label)

/-- Outcome of `employee_views.process_survey_submission`. -/
inductive SubmissionResult where
  | missingRequired (labels : List String)
  | alreadyCompleted
  | saved (completed : Bool)
  deriving DecidableEq, Repr

/-- `employee_views.process_survey_submission`: reject a completed submission
with missing required fields, then reject a completed submission when a
completed response already exists today, otherwise insert the response row and
its details. -/
def process_survey_submission (db : DB) (uid sid region : Nat)
    (fields : List SurveyField) (answers : List (Nat × Answer))
    (is_completed : Bool) : DB × SubmissionResult :=
  let missing := check_required_fields fields answers
  if !missing.isEmpty && is_completed then
    (db, SubmissionResult.missingRequired missing)
  else if is_completed && has_completed_survey_today db uid sid then
    (db, SubmissionResult.alreadyCompleted)
  else
    let r := save_response db sid uid region is_completed
    (save_response_details r.1 r.2 answers, SubmissionResult.saved is_completed)

/-- `database.update_response_detail`: in-place overwrite of one
`Response_Details` value.  The function performs only the UPDATE — it writes
no `AuditLog` row, and neither do its callers in `admin_views.py` and
`governorate_admin_views.py`. -/
def update_response_detail (db : DB) (detail_id : Nat) (new_value : String) : DB :=
  { db with responseDetails :=
      db.responseDetails.map (fun rd =>
        if rd.detail_id == detail_id then { rd with answer_value := new_value }
        else rd) }

/-- `database.log_audit_action`: appends one `AuditLog` row.  (Defined in the
source but never invoked by any view.) -/
def log_audit_action (db : DB) (uid : Nat) (action_type table_name : String)
    (record_id : Option Nat) (old_value new_value : Option String) : DB :=
  { db with auditLog := db.auditLog ++
      [{ user_id := uid, action_type := action_type, table_name := table_name,
         record_id := record_id, old_value := old_value,
         new_value := new_value }] }

/-- Comparison used by `ORDER BY field_order` in `get_survey_fields`. -/
def fieldLe (f g : SurveyField) : Prop := f.field_order ≤ g.field_order

instance : DecidableRel fieldLe := fun f g => Nat.decLe f.field_order g.field_order

instance : IsTotal SurveyField fieldLe := ⟨fun f g => Nat.le_total f.field_order g.field_order⟩

instance : IsTrans SurveyField fieldLe := ⟨fun _ _ _ => Nat.le_trans⟩

/-- `database.get_survey_fields`: the `Survey_Fields` rows of one survey,
ordered by `field_order`. -/
def get_survey_fields (db : DB) (sid : Nat) : List SurveyField :=
  List.insertionSort fieldLe (db.surveyFields.filter (fun f => f.survey_id == sid))

/-- `database.delete_survey`: the five DELETE statements in source order —
details of the survey's responses (the sub-select runs while the responses
are still present), then the responses, the fields, the governorate links and
finally the survey row. -/
def delete_survey (db : DB) (sid : Nat) : DB :=
  let sidResponseIds :=
    (db.responses.filter (fun r => r.survey_id == sid)).map
      (fun r => r.response_id)
  let db1 := { db with responseDetails :=
      db.responseDetails.filter (fun rd => !sidResponseIds.contains rd.response_id) }
  let db2 := { db1 with responses :=
      db1.responses.filter (fun r => !(r.survey_id == sid)) }
  let db3 := { db2 with surveyFields :=
      db2.surveyFields.filter (fun f => !(f.survey_id == sid)) }
  let db4 := { db3 with surveyGovernorate :=
      db3.surveyGovernorate.filter (fun sg => !(sg.1 == sid)) }
  { db4 with surveys := db4.surveys.filter (fun s => !(s.survey_id == sid)) }

/-- Target field specification handed to `database.update_survey`: a dict
with label, type, options list and required flag, and optionally a
`field_id` key (present = update that field, absent = insert a new one). -/
structure FieldSpec where
  field_id : Option Nat
  field_label : String
  field_type : String
  field_options : List String
  is_required : Bool
  deriving DecidableEq, Repr

/-- A crude `json.dumps` for a list of strings; the exact encoding is
irrelevant to every claim, only non-emptiness is. -/
def jsonDumps (l : List String) : String :=
  "[" ++ String.intercalate ", " l ++ "]"

/-- The stored `field_options` column value:
`json.dumps(field.get(..., [])) if field.get(...) else None` — an empty (or
absent) options list is Python-falsy and stores SQL NULL. -/
def storedOptions (opts : List String) : Option String :=
  if opts = [] then none else some (jsonDumps opts)

/-- The in-place UPDATE `update_survey` runs for a target entry that carries a
field id: label, type, options, required flag and order are overwritten, the
id and the parent survey are untouched. -/
def updContent (spec : FieldSpec) (k : Nat) (f : SurveyField) : SurveyField :=
  { f with field_label := spec.field_label, field_type := spec.field_type,
           field_options := storedOptions spec.field_options,
           is_required := spec.is_required, field_order := k }

/-- The `for i, field in enumerate(fields)` loop of `database.update_survey`:
position `k` is the enumeration index, `L` the current `Survey_Fields` table
and `n` the next serial id.  An entry with a field id UPDATEs every row with
that id (the SQL has no survey filter); an entry without inserts a fresh row
for this survey with `field_order = k`. -/
def reconcileFields (sid : Nat) : Nat → List FieldSpec → List SurveyField → Nat →
    List SurveyField × Nat
  | _, [], L, n => (L, n)
  | k, spec :: rest, L, n =>
    match spec.field_id with
    | some fid =>
      reconcileFields sid (k+1) rest
        (L.map (fun f => if f.field_id == fid then updContent spec k f else f)) n
    | none =>
      reconcileFields sid (k+1) rest
        (L ++ [{ field_id := n, survey_id := sid,
                 field_label := spec.field_label, field_type := spec.field_type,
                 field_options := storedOptions spec.field_options,
                 is_required := spec.is_required, field_order := k }]) (n+1)

/-- `database.update_survey`: updates the survey row, deletes the fields whose
ids are present now but absent from the target list, then walks the target
list updating or inserting each entry with `field_order` equal to its
position. -/
def update_survey (db : DB) (sid : Nat) (survey_name : String)
    (is_active : Bool) (F : List FieldSpec) : DB :=
  let surveys' := db.surveys.map (fun s =>
    if s.survey_id == sid then
      { s with survey_name := survey_name, is_active := is_active } else s)
  let existingIds :=
    (db.surveyFields.filter (fun f => f.survey_id == sid)).map (fun f => f.field_id)
  let updatedIds := F.filterMap (fun spec => spec.field_id)
  let toDelete := existingIds.filter (fun fid => !updatedIds.contains fid)
  let afterDelete := db.surveyFields.filter (fun f => !toDelete.contains f.field_id)
  let r := reconcileFields sid 0 F afterDelete db.nextId
  { db with surveys := surveys', surveyFields := r.1, nextId := r.2 }

/-- Modelled from the spec: the SQL schema (CREATE TABLE statements) is not
under `src/`; per the spec, `Governorates.governorate_name` is unique, so the
bare INSERT in `database.add_governorate` raises on a duplicate name and
`execute_query` rolls it back and reports failure.  A fresh name inserts one
row with a fresh id. -/
def add_governorate (db : DB) (name description : String) : DB × Bool :=
  if db.governorates.any (fun g => g.governorate_name == name) then (db, false)
  else
    ({ db with
        governorates := db.governorates ++
          [{ governorate_id := db.nextId, governorate_name := name,
             description := description }],
        nextId := db.nextId + 1 }, true)

/-- Spec-side visibility predicate, following the spec's words for an
employee: the survey is active AND (its governorate-link set contains the
employee's governorate, derived via the health administration, OR the
employee holds an explicit `UserSurveys` grant). -/
def employeeSurveyVisibleSpec (db : DB) (uid sid : Nat) : Prop :=
  (∃ s ∈ db.surveys, s.survey_id = sid ∧ s.is_active = true) ∧
  ((∃ u ∈ db.users, u.user_id = uid ∧
      ∃ ha ∈ db.healthAdmins, u.assigned_region = some ha.admin_id ∧
        (sid, ha.governorate_id) ∈ db.surveyGovernorate) ∨
    (uid, sid) ∈ db.userSurveys)

instance (db : DB) (uid sid : Nat) : Decidable (employeeSurveyVisibleSpec db uid sid) := by
  unfold employeeSurveyVisibleSpec
  infer_instance

/-- The field row a target entry at position `k` should produce according to
the reconciliation contract: all content from the spec entry, parent survey
`sid`, order index `k`, and the stated field id. -/
def mkExpected (sid fid : Nat) (spec : FieldSpec) (k : Nat) : SurveyField :=
  { field_id := fid, survey_id := sid, field_label := spec.field_label,
    field_type := spec.field_type,
    field_options := storedOptions spec.field_options,
    is_required := spec.is_required, field_order := k }

/-- The full field list the reconciliation should leave behind: one row per
target entry in submitted order, position `k` onward, fresh ids from `n` for
the entries without an id. -/
def expectedFields (sid : Nat) : Nat → List FieldSpec → Nat →
    List SurveyField × Nat
  | _, [], n => ([], n)
  | k, spec :: rest, n =>
    match spec.field_id with
    | some fid =>
      let r := expectedFields sid (k+1) rest n
      (mkExpected sid fid spec k :: r.1, r.2)
    | none =>
      let r := expectedFields sid (k+1) rest (n+1)
      (mkExpected sid n spec k :: r.1, r.2)

/-- The rows produced by the insert branch only (entries without an id). -/
def newList (sid : Nat) : Nat → List FieldSpec → Nat → List SurveyField × Nat
  | _, [], n => ([], n)
  | k, spec :: rest, n =>
    match spec.field_id with
    | some _ => newList sid (k+1) rest n
    | none =>
      let r := newList sid (k+1) rest (n+1)
      (mkExpected sid n spec k :: r.1, r.2)

/-- The rows produced by the update branch only (entries carrying an id). -/
def someExpected (sid : Nat) : Nat → List FieldSpec → List SurveyField
  | _, [] => []
  | k, spec :: rest =>
    match spec.field_id with
    | some fid => mkExpected sid fid spec k :: someExpected sid (k+1) rest
    | none => someExpected sid (k+1) rest

/-- Sequential application, to one field row, of every UPDATE the enumeration
loop issues: the row is rewritten by each matching target entry in turn. -/
def applySpecs : Nat → List FieldSpec → SurveyField → SurveyField
  | _, [], f => f
  | k, spec :: rest, f =>
    match spec.field_id with
    | some fid =>
      applySpecs (k+1) rest (if f.field_id == fid then updContent spec k f else f)
    | none => applySpecs (k+1) rest f

/-- The first target entry carrying the given field id, with its position. -/
def specAt : Nat → List FieldSpec → Nat → Option (FieldSpec × Nat)
  | _, [], _ => none
  | k, spec :: rest, fid =>
    match spec.field_id with
    | some fid0 => if fid0 == fid then some (spec, k) else specAt (k+1) rest fid
    | none => specAt (k+1) rest fid

/-- The expected row for a retained field id: built from the target entry
that carries this id (the fallback alternative is never reached when the id
occurs in the target list). -/
def buildExpected (sid k : Nat) (F : List FieldSpec) (fid : Nat) : SurveyField :=
  match specAt k F fid with
  | some p => mkExpected sid fid p.1 p.2
  | none =>
    mkExpected sid fid
      { field_id := none, field_label := "", field_type := "",
        field_options := [], is_required := false } 0

/-- Strict comparison on order indices, used to pin down the sorted field
list when all order indices are distinct. -/
def fieldLt (f g : SurveyField) : Prop := f.field_order < g.field_order

instance : IsAntisymm SurveyField fieldLt :=
  ⟨fun _ _ h1 h2 => absurd (Nat.lt_trans h1 h2) (Nat.lt_irrefl _)⟩

/-- Concrete required text field used by the C6 witness. -/
def exC6field : SurveyField :=
  { field_id := 1, survey_id := 5, field_label := "Name", field_type := "text",
    field_options := none, is_required := true, field_order := 0 }

/-- Concrete required checkbox field used by the C9 witness. -/
def exC9field : SurveyField :=
  { field_id := 2, survey_id := 5, field_label := "Agree",
    field_type := "checkbox", field_options := none, is_required := true,
    field_order := 0 }

/-- An empty database state used as the base of the concrete examples. -/
def emptyDB : DB :=
  { governorates := [], healthAdmins := [], users := [], surveys := [],
    surveyFields := [], surveyGovernorate := [], userSurveys := [],
    responses := [], responseDetails := [], auditLog := [],
    nextId := 100, today := 7 }

/-- State for the C1 counterexample: employee 1 sits in health
administration 1 of governorate 1; survey 10 is active but linked to no
governorate; the employee holds an explicit `UserSurveys` grant for it. -/
def exC1db : DB :=
  { emptyDB with
    governorates := [{ governorate_id := 1, governorate_name := "Cairo", description := "" }],
    healthAdmins := [{ admin_id := 1, admin_name := "Central", governorate_id := 1 }],
    users := [{ user_id := 1, username := "u1", role := "employee", assigned_region := some 1 }],
    surveys := [{ survey_id := 10, survey_name := "Weekly", is_active := true }],
    userSurveys := [(1, 10)] }

/-- State for C2: user 1 already has a completed response for survey 5 today. -/
def exC2db : DB :=
  { emptyDB with
    responses := [{ response_id := 1, survey_id := 5, user_id := 1, region_id := 2,
                    is_completed := true, submission_date := 7 }] }

/-- State for C3: one response detail with value "old" and an empty audit log. -/
def exC3db : DB :=
  { emptyDB with
    responseDetails := [{ detail_id := 1, response_id := 1, field_id := 1,
                          answer_value := "old" }] }

/-- State for C4: survey 1 with fields A (id 1, order 0) and B (id 2,
order 1). -/
def exC4db : DB :=
  { emptyDB with
    surveys := [{ survey_id := 1, survey_name := "S", is_active := true }],
    surveyFields := [{ field_id := 1, survey_id := 1, field_label := "A",
                       field_type := "text", field_options := none,
                       is_required := false, field_order := 0 },
                     { field_id := 2, survey_id := 1, field_label := "B",
                       field_type := "text", field_options := none,
                       is_required := false, field_order := 1 }] }

/-- Reconciliation target for C4 and C5: keep field 2 (relabelled, first
position), add a new field, omit field 1. -/
def exC4F : List FieldSpec :=
  [{ field_id := some 2, field_label := "B2", field_type := "text",
     field_options := [], is_required := true },
   { field_id := none, field_label := "C", field_type := "number",
     field_options := [], is_required := false }]

/-- State for C5: like `exC4db` but field 1 is referenced by a response
detail of a completed response. -/
def exC5db : DB :=
  { exC4db with
    responses := [{ response_id := 50, survey_id := 1, user_id := 1,
                    region_id := 2, is_completed := true,
                    submission_date := 6 }],
    responseDetails := [{ detail_id := 60, response_id := 50, field_id := 1,
                          answer_value := "x" }] }

/-- State for C7: one governorate named "Cairo" and no health administrations. -/
def exC7db : DB :=
  { emptyDB with
    governorates := [{ governorate_id := 1, governorate_name := "Cairo", description := "" }] }

/-- State for C8: two surveys with fields, links, responses and details each. -/
def exC8db : DB :=
  { emptyDB with
    surveys := [{ survey_id := 1, survey_name := "A", is_active := true },
                { survey_id := 2, survey_name := "B", is_active := false }],
    surveyFields := [{ field_id := 11, survey_id := 1, field_label := "q1",
                       field_type := "text", field_options := none,
                       is_required := true, field_order := 0 },
                     { field_id := 21, survey_id := 2, field_label := "q2",
                       field_type := "text", field_options := none,
                       is_required := false, field_order := 0 }],
    surveyGovernorate := [(1, 3), (2, 3)],
    responses := [{ response_id := 31, survey_id := 1, user_id := 1, region_id := 2,
                    is_completed := true, submission_date := 6 },
                  { response_id := 32, survey_id := 2, user_id := 1, region_id := 2,
                    is_completed := false, submission_date := 6 }],
    responseDetails := [{ detail_id := 41, response_id := 31, field_id := 11,
                          answer_value := "x" },
                        { detail_id := 42, response_id := 32, field_id := 21,
                          answer_value := "y" }] }

/-- State for C10: two surveys, and a stale grant of user 1 to survey id 2. -/
def exC10db : DB :=
  { emptyDB with
    surveys := [{ survey_id := 1, survey_name := "A", is_active := true },
                { survey_id := 2, survey_name := "B", is_active := true }],
    userSurveys := [(1, 2), (9, 1)] }


/-- `applySpecs` never changes a row's field id. -/
theorem applySpecs_field_id : ∀ (F : List FieldSpec) (k : Nat) (f : SurveyField),
    (applySpecs k F f).field_id = f.field_id := by
  intro F
  induction F with
  | nil => intro k f; rfl
  | cons spec rest ih =>
    intro k f
    cases hs : spec.field_id with
    | none => simp only [applySpecs, hs]; exact ih (k+1) f
    | some fid =>
      simp only [applySpecs, hs]
      rw [ih (k+1)]
      split <;> rfl

/-- `applySpecs` never changes a row's parent survey. -/
theorem applySpecs_survey_id : ∀ (F : List FieldSpec) (k : Nat) (f : SurveyField),
    (applySpecs k F f).survey_id = f.survey_id := by
  intro F
  induction F with
  | nil => intro k f; rfl
  | cons spec rest ih =>
    intro k f
    cases hs : spec.field_id with
    | none => simp only [applySpecs, hs]; exact ih (k+1) f
    | some fid =>
      simp only [applySpecs, hs]
      rw [ih (k+1)]
      split <;> rfl

/-- A row whose id occurs in no target entry is untouched by the update
loop. -/
theorem applySpecs_of_not_mem : ∀ (F : List FieldSpec) (k : Nat) (f : SurveyField),
    f.field_id ∉ F.filterMap (fun s => s.field_id) → applySpecs k F f = f := by
  intro F
  induction F with
  | nil => intro k f _; rfl
  | cons spec rest ih =>
    intro k f hmem
    cases hs : spec.field_id with
    | none =>
      simp only [applySpecs, hs]
      refine ih (k+1) f (fun hm => hmem ?_)
      simp [List.filterMap_cons, hs, hm]
    | some fid =>
      have hne : f.field_id ≠ fid := by
        intro he
        refine hmem ?_
        simp [List.filterMap_cons, hs, he]
      simp only [applySpecs, hs, beq_eq_false_iff_ne.mpr hne, Bool.false_eq_true,
        if_false]
      refine ih (k+1) f (fun hm => hmem ?_)
      simp [List.filterMap_cons, hs, hm]

/-- One pass of the in-place UPDATE preserves the id column of the table. -/
theorem map_upd_ids (L : List SurveyField) (spec : FieldSpec) (k fid : Nat) :
    (L.map (fun f => if f.field_id == fid then updContent spec k f else f)).map
      (fun f => f.field_id) = L.map (fun f => f.field_id) := by
  rw [List.map_map]
  refine List.map_congr_left (fun f _ => ?_)
  simp only [Function.comp]
  split <;> rfl

/-- The rows produced by the insert branch belong to the survey and carry
fresh ids. -/
theorem newList_mem (sid : Nat) : ∀ (F : List FieldSpec) (k n : Nat),
    ∀ f ∈ (newList sid k F n).1, f.survey_id = sid ∧ n ≤ f.field_id := by
  intro F
  induction F with
  | nil => intro k n f hf; cases hf
  | cons spec rest ih =>
    intro k n f hf
    cases hs : spec.field_id with
    | some fid =>
      simp only [newList, hs] at hf
      exact ih (k+1) n f hf
    | none =>
      simp only [newList, hs] at hf
      rcases List.mem_cons.mp hf with hh | ht
      · subst hh
        exact ⟨rfl, Nat.le_refl n⟩
      · rcases ih (k+1) (n+1) f ht with ⟨h1, h2⟩
        exact ⟨h1, Nat.le_of_succ_le h2⟩

/-- The enumeration loop of `update_survey`, characterised: every existing
row passes through the sequence of UPDATEs, and the inserted rows are
appended, provided the target ids all occur in the table and the fresh-id
counter is above every existing id. -/
theorem reconcileFields_eq (sid : Nat) : ∀ (F : List FieldSpec) (k : Nat)
    (L : List SurveyField) (n : Nat),
    (∀ fid ∈ F.filterMap (fun s => s.field_id),
        fid ∈ L.map (fun f => f.field_id)) →
    (∀ f ∈ L, f.field_id < n) →
    (reconcileFields sid k F L n).1 =
      L.map (applySpecs k F) ++ (newList sid k F n).1 := by
  intro F
  induction F with
  | nil =>
    intro k L n _ _
    simp only [reconcileFields, newList, List.append_nil]
    rw [List.map_congr_left (fun f _ => (rfl : applySpecs k [] f = f))]
    exact (List.map_id L).symm
  | cons spec rest ih =>
    intro k L n hA hD
    cases hs : spec.field_id with
    | some fid =>
      have hA' : ∀ fid' ∈ rest.filterMap (fun s => s.field_id),
          fid' ∈ (L.map (fun f =>
            if f.field_id == fid then updContent spec k f else f)).map
              (fun f => f.field_id) := by
        intro fid' hm
        rw [map_upd_ids]
        refine hA fid' ?_
        simp [List.filterMap_cons, hs, hm]
      have hD' : ∀ f ∈ L.map (fun f =>
          if f.field_id == fid then updContent spec k f else f),
          f.field_id < n := by
        intro f hf
        rcases List.mem_map.mp hf with ⟨f0, hf0, heq⟩
        have hid : f.field_id = f0.field_id := by
          rw [← heq]; split <;> rfl
        rw [hid]
        exact hD f0 hf0
      have hrec := ih (k+1)
        (L.map (fun f => if f.field_id == fid then updContent spec k f else f))
        n hA' hD'
      simp only [reconcileFields, hs]
      rw [hrec]
      congr 1
      · rw [List.map_map]
        refine List.map_congr_left (fun f _ => ?_)
        simp only [Function.comp, applySpecs, hs]
      · simp only [newList, hs]
    | none =>
      have hstep : reconcileFields sid k (spec :: rest) L n =
          reconcileFields sid (k+1) rest (L ++ [mkExpected sid n spec k]) (n+1) := by
        simp only [reconcileFields, hs]
        rfl
      have hA' : ∀ fid' ∈ rest.filterMap (fun s => s.field_id),
          fid' ∈ (L ++ [mkExpected sid n spec k]).map (fun f => f.field_id) := by
        intro fid' hm
        rw [List.map_append]
        refine List.mem_append_left _ (hA fid' ?_)
        simp [List.filterMap_cons, hs, hm]
      have hD' : ∀ f ∈ L ++ [mkExpected sid n spec k], f.field_id < n + 1 := by
        intro f hf
        rcases List.mem_append.mp hf with hL | hnew
        · exact Nat.lt_succ_of_lt (hD f hL)
        · rcases List.mem_singleton.mp hnew with rfl
          exact Nat.lt_succ_self n
      have hrec := ih (k+1) (L ++ [mkExpected sid n spec k]) (n+1) hA' hD'
      rw [hstep, hrec, List.map_append]
      have hnew : applySpecs (k+1) rest (mkExpected sid n spec k) =
          mkExpected sid n spec k := by
        refine applySpecs_of_not_mem rest (k+1) _ (fun hm => ?_)
        have hmem : (n : Nat) ∈ rest.filterMap (fun s => s.field_id) := hm
        have hn : (n : Nat) ∈ L.map (fun f => f.field_id) := by
          refine hA n ?_
          simp [List.filterMap_cons, hs, hmem]
        rcases List.mem_map.mp hn with ⟨f0, hf0, hid⟩
        have hlt := hD f0 hf0
        rw [hid] at hlt
        exact Nat.lt_irrefl n hlt
      simp only [List.map_cons, List.map_nil]
      rw [hnew]
      have hend : (newList sid k (spec :: rest) n).1 =
          mkExpected sid n spec k :: (newList sid (k+1) rest (n+1)).1 := by
        simp only [newList, hs]
      rw [hend, List.append_assoc, List.singleton_append]
      congr 1
      refine List.map_congr_left (fun f _ => ?_)
      simp only [applySpecs, hs]

/-- A target id occurring in the list is found by `specAt`, together with the
entry that carries it. -/
theorem specAt_eq_some : ∀ (F : List FieldSpec) (k fid : Nat),
    fid ∈ F.filterMap (fun s => s.field_id) →
    ∃ spec j, specAt k F fid = some (spec, j) ∧ spec.field_id = some fid := by
  intro F
  induction F with
  | nil => intro k fid h; cases h
  | cons spec0 rest ih =>
    intro k fid hmem
    cases hs : spec0.field_id with
    | none =>
      have hmem' : fid ∈ rest.filterMap (fun s => s.field_id) := by
        simpa [List.filterMap_cons, hs] using hmem
      rcases ih (k+1) fid hmem' with ⟨spec, j, h1, h2⟩
      exact ⟨spec, j, by simp only [specAt, hs]; exact h1, h2⟩
    | some fid0 =>
      by_cases hfe : fid0 = fid
      · subst hfe
        exact ⟨spec0, k, by simp [specAt, hs], hs⟩
      · have hmem' : fid ∈ rest.filterMap (fun s => s.field_id) := by
          simp only [List.filterMap_cons, hs] at hmem
          rcases List.mem_cons.mp hmem with h | h
          · exact absurd h.symm hfe
          · exact h
        rcases ih (k+1) fid hmem' with ⟨spec, j, h1, h2⟩
        refine ⟨spec, j, ?_, h2⟩
        simp only [specAt, hs, beq_eq_false_iff_ne.mpr hfe, Bool.false_eq_true,
          if_false]
        exact h1

/-- When the target ids are distinct, the sequence of UPDATEs applied to a
row whose id is found at entry `(spec, j)` amounts to that single UPDATE. -/
theorem applySpecs_eq_updContent : ∀ (F : List FieldSpec) (k : Nat)
    (spec : FieldSpec) (j : Nat) (f : SurveyField),
    (F.filterMap (fun s => s.field_id)).Nodup →
    specAt k F f.field_id = some (spec, j) →
    applySpecs k F f = updContent spec j f := by
  intro F
  induction F with
  | nil => intro k spec j f _ h; cases h
  | cons spec0 rest ih =>
    intro k spec j f hC hAt
    cases hs : spec0.field_id with
    | none =>
      have hC' : (rest.filterMap (fun s => s.field_id)).Nodup := by
        simpa [List.filterMap_cons, hs] using hC
      simp only [specAt, hs] at hAt
      simp only [applySpecs, hs]
      exact ih (k+1) spec j f hC' hAt
    | some fid0 =>
      have hCc : fid0 ∉ rest.filterMap (fun s => s.field_id) ∧
          (rest.filterMap (fun s => s.field_id)).Nodup := by
        have := hC
        rw [List.filterMap_cons, hs] at this
        exact List.nodup_cons.mp this
      by_cases hfe : fid0 = f.field_id
      · have hAt' : spec0 = spec ∧ k = j := by
          simp only [specAt, hs, beq_iff_eq.mpr hfe, if_true, Option.some.injEq,
            Prod.mk.injEq] at hAt
          exact hAt
        rcases hAt' with ⟨h1, h2⟩
        subst h1
        subst h2
        simp only [applySpecs, hs, beq_iff_eq.mpr hfe.symm, if_true]
        have hid : (updContent spec0 k f).field_id = f.field_id := rfl
        refine applySpecs_of_not_mem rest (k+1) _ ?_
        rw [hid, ← hfe]
        exact hCc.1

      · have hne : (f.field_id == fid0) = false :=
          beq_eq_false_iff_ne.mpr (fun h => hfe h.symm)
        have hne' : (fid0 == f.field_id) = false := beq_eq_false_iff_ne.mpr hfe
        simp only [specAt, hs, hne', Bool.false_eq_true, if_false] at hAt
        simp only [applySpecs, hs, hne, Bool.false_eq_true, if_false]
        exact ih (k+1) spec j f hCc.2 hAt

/-- With distinct target ids, the update-branch rows are the image of the
given-id list under `buildExpected`. -/
theorem someExpected_eq_map (sid : Nat) : ∀ (F : List FieldSpec) (k : Nat),
    (F.filterMap (fun s => s.field_id)).Nodup →
    someExpected sid k F =
      (F.filterMap (fun s => s.field_id)).map (buildExpected sid k F) := by
  intro F
  induction F with
  | nil => intro k _; rfl
  | cons spec0 rest ih =>
    intro k hC
    cases hs : spec0.field_id with
    | none =>
      have hC' : (rest.filterMap (fun s => s.field_id)).Nodup := by
        simpa [List.filterMap_cons, hs] using hC
      have heq : ∀ fid, buildExpected sid k (spec0 :: rest) fid =
          buildExpected sid (k+1) rest fid := by
        intro fid
        simp only [buildExpected, specAt, hs]
      simp only [someExpected, hs, List.filterMap_cons]
      rw [ih (k+1) hC', List.map_congr_left (fun fid _ => (heq fid).symm)]
    | some fid0 =>
      have hCc : fid0 ∉ rest.filterMap (fun s => s.field_id) ∧
          (rest.filterMap (fun s => s.field_id)).Nodup := by
        have := hC
        rw [List.filterMap_cons, hs] at this
        exact List.nodup_cons.mp this
      have hhead : buildExpected sid k (spec0 :: rest) fid0 =
          mkExpected sid fid0 spec0 k := by
        simp [buildExpected, specAt, hs]
      have htail : ∀ fid ∈ rest.filterMap (fun s => s.field_id),
          buildExpected sid k (spec0 :: rest) fid =
            buildExpected sid (k+1) rest fid := by
        intro fid hfid
        have hne : (fid0 == fid) = false :=
          beq_eq_false_iff_ne.mpr (fun h => hCc.1 (h ▸ hfid))
        simp only [buildExpected, specAt, hs, hne, Bool.false_eq_true, if_false]
      simp only [someExpected, hs, List.filterMap_cons]
      rw [List.map_cons, hhead, ih (k+1) hCc.2,
        List.map_congr_left (fun fid hfid => (htail fid hfid).symm)]

/-- The expected field list splits, up to permutation, into its update rows
and its insert rows. -/
theorem expected_perm (sid : Nat) : ∀ (F : List FieldSpec) (k n : Nat),
    (expectedFields sid k F n).1.Perm
      (someExpected sid k F ++ (newList sid k F n).1) := by
  intro F
  induction F with
  | nil => intro k n; rfl
  | cons spec0 rest ih =>
    intro k n
    cases hs : spec0.field_id with
    | some fid =>
      simp only [expectedFields, someExpected, newList, hs, List.cons_append]
      exact (ih (k+1) n).cons _
    | none =>
      simp only [expectedFields, someExpected, newList, hs]
      exact ((ih (k+1) (n+1)).cons _).trans List.perm_middle.symm

/-- Every expected row's order index is at least the starting position. -/
theorem expected_lb (sid : Nat) : ∀ (F : List FieldSpec) (k n : Nat),
    ∀ f ∈ (expectedFields sid k F n).1, k ≤ f.field_order := by
  intro F
  induction F with
  | nil => intro k n f hf; cases hf
  | cons spec0 rest ih =>
    intro k n f hf
    cases hs : spec0.field_id with
    | some fid =>
      simp only [expectedFields, hs] at hf
      rcases List.mem_cons.mp hf with rfl | ht
      · exact Nat.le_refl k
      · exact Nat.le_of_succ_le (ih (k+1) n f ht)
    | none =>
      simp only [expectedFields, hs] at hf
      rcases List.mem_cons.mp hf with rfl | ht
      · exact Nat.le_refl k
      · exact Nat.le_of_succ_le (ih (k+1) (n+1) f ht)

/-- The expected field list is strictly increasing in order index. -/
theorem expected_sorted (sid : Nat) : ∀ (F : List FieldSpec) (k n : Nat),
    List.Pairwise (fun f g => f.field_order < g.field_order)
      (expectedFields sid k F n).1 := by
  intro F
  induction F with
  | nil => intro k n; exact List.Pairwise.nil
  | cons spec0 rest ih =>
    intro k n
    cases hs : spec0.field_id with
    | some fid =>
      simp only [expectedFields, hs]
      refine List.pairwise_cons.mpr ⟨fun g hg => ?_, ih (k+1) n⟩
      exact Nat.lt_of_lt_of_le (Nat.lt_succ_self k) (expected_lb sid rest (k+1) n g hg)
    | none =>
      simp only [expectedFields, hs]
      refine List.pairwise_cons.mpr ⟨fun g hg => ?_, ih (k+1) (n+1)⟩
      exact Nat.lt_of_lt_of_le (Nat.lt_succ_self k)
        (expected_lb sid rest (k+1) (n+1) g hg)

/-- The expected field list has one row per target entry. -/
theorem expected_length (sid : Nat) : ∀ (F : List FieldSpec) (k n : Nat),
    (expectedFields sid k F n).1.length = F.length := by
  intro F
  induction F with
  | nil => intro k n; rfl
  | cons spec0 rest ih =>
    intro k n
    cases hs : spec0.field_id with
    | some fid => simp only [expectedFields, hs, List.length_cons, ih (k+1) n]
    | none => simp only [expectedFields, hs, List.length_cons, ih (k+1) (n+1)]

/-- The expected row at position `i` carries the content of target entry `i`,
order index `k + i`, the survey id, and the entry's field id when given. -/
theorem expected_get (sid : Nat) : ∀ (F : List FieldSpec) (k n i : Nat)
    (spec : FieldSpec), F.get? i = some spec →
    ∃ f, (expectedFields sid k F n).1.get? i = some f ∧
      f.field_order = k + i ∧ f.field_label = spec.field_label ∧
      f.field_type = spec.field_type ∧ f.is_required = spec.is_required ∧
      f.field_options = storedOptions spec.field_options ∧
      f.survey_id = sid ∧
      (∀ fid, spec.field_id = some fid → f.field_id = fid) := by
  intro F
  induction F with
  | nil => intro k n i spec h; cases h
  | cons spec0 rest ih =>
    intro k n i spec hget
    cases i with
    | zero =>
      have hspec : spec0 = spec := by
        simpa using hget
      subst hspec
      cases hs : spec0.field_id with
      | some fid =>
        refine ⟨mkExpected sid fid spec0 k, ?_, rfl, rfl, rfl, rfl, rfl, rfl, ?_⟩
        · simp only [expectedFields, hs, List.get?]
        · intro fid' hfid'
          injection hfid' with h
      | none =>
        refine ⟨mkExpected sid n spec0 k, ?_, rfl, rfl, rfl, rfl, rfl, rfl, ?_⟩
        · simp only [expectedFields, hs, List.get?]
        · intro fid' hfid'
          exact Option.noConfusion hfid'
    | succ i' =>
      have hget' : rest.get? i' = some spec := by
        simpa using hget
      cases hs : spec0.field_id with
      | some fid =>
        rcases ih (k+1) n i' spec hget' with ⟨f, h1, h2, h3⟩
        refine ⟨f, ?_, ?_, h3⟩
        · simp only [expectedFields, hs, List.get?]
          exact h1
        · rw [h2]
          omega
      | none =>
        rcases ih (k+1) (n+1) i' spec hget' with ⟨f, h1, h2, h3⟩
        refine ⟨f, ?_, ?_, h3⟩
        · simp only [expectedFields, hs, List.get?]
          exact h1
        · rw [h2]
          omega

/-- Filtering commutes with a map that does not change the tested column. -/
theorem filter_map_comm {α : Type _} (g : α → α) (p : α → Bool)
    (hpg : ∀ x, p (g x) = p x) : ∀ l : List α,
    (l.map g).filter p = (l.filter p).map g := by
  intro l
  induction l with
  | nil => rfl
  | cons a t ih =>
    simp only [List.map_cons, List.filter_cons, hpg]
    cases h : p a
    · simpa [h] using ih
    · simp [h, ih]

/-- Boolean `contains` on a list of ids, negatively. -/
theorem contains_false_iff {l : List Nat} {x : Nat} :
    l.contains x = false ↔ x ∉ l := by
  constructor
  · intro h hx
    have hc : l.contains x = true := List.elem_iff.mpr hx
    rw [h] at hc
    cases hc
  · intro h
    cases hc : l.contains x
    · rfl
    · exact absurd (List.elem_iff.mp hc) h

/-- The single UPDATE for a row of this survey produces exactly the expected
row. -/
theorem updContent_eq_mkExpected (sid : Nat) (spec : FieldSpec) (j : Nat)
    (f : SurveyField) (h : f.survey_id = sid) :
    updContent spec j f = mkExpected sid f.field_id spec j := by
  obtain ⟨a, b, c, d, e, g, o⟩ := f
  have hb : b = sid := h
  subst hb
  rfl

/-- Every id in the reconciled table either came from the table the loop
started with or is a freshly inserted one. -/
theorem reconcileFields_ids (sid : Nat) : ∀ (F : List FieldSpec) (k : Nat)
    (L : List SurveyField) (n : Nat),
    ∀ g ∈ (reconcileFields sid k F L n).1,
      g.field_id ∈ L.map (fun f => f.field_id) ∨ n ≤ g.field_id := by
  intro F
  induction F with
  | nil =>
    intro k L n g hg
    exact Or.inl (List.mem_map.mpr ⟨g, hg, rfl⟩)
  | cons spec rest ih =>
    intro k L n g hg
    cases hs : spec.field_id with
    | some fid =>
      simp only [reconcileFields, hs] at hg
      rcases ih (k+1) _ n g hg with h | h
      · rw [map_upd_ids] at h
        exact Or.inl h
      · exact Or.inr h
    | none =>
      simp only [reconcileFields, hs] at hg
      rcases ih (k+1) _ (n+1) g hg with h | h
      · rw [List.map_append] at h
        rcases List.mem_append.mp h with h1 | h2
        · exact Or.inl h1
        · rcases List.mem_map.mp h2 with ⟨x, hx, hxid⟩
          rcases List.mem_singleton.mp hx with rfl
          have hn : (n : Nat) = g.field_id := hxid
          exact Or.inr (hn ▸ Nat.le_refl n)
      · exact Or.inr (Nat.le_of_succ_le h)

/-- A field of the survey omitted from the target list is erased: no row of
the reconciled table carries its id (the DELETE removes it and fresh inserts
use larger ids). -/
theorem update_survey_removes (db : DB) (sid : Nat) (name : String)
    (active : Bool) (F : List FieldSpec)
    (hfresh : ∀ f ∈ db.surveyFields, f.field_id < db.nextId) :
    ∀ f0 ∈ db.surveyFields, f0.survey_id = sid →
      f0.field_id ∉ F.filterMap (fun spec => spec.field_id) →
      ∀ g ∈ (update_survey db sid name active F).surveyFields,
        g.field_id ≠ f0.field_id := by
  intro f0 hf0 hf0s hf0not g hg heq
  have hg' : g ∈ (reconcileFields sid 0 F
      (db.surveyFields.filter (fun f =>
        !((((db.surveyFields.filter (fun g => g.survey_id == sid)).map
            (fun g => g.field_id)).filter (fun fid =>
              !(F.filterMap (fun spec => spec.field_id)).contains fid)).contains
          f.field_id))) db.nextId).1 := hg
  rcases reconcileFields_ids sid F 0 _ db.nextId g hg' with h | h
  · rcases List.mem_map.mp h with ⟨f', hf', hfid'⟩
    rcases List.mem_filter.mp hf' with ⟨hf'mem, hf'keep⟩
    have hto : f0.field_id ∈
        ((db.surveyFields.filter (fun g => g.survey_id == sid)).map
          (fun g => g.field_id)).filter (fun fid =>
            !(F.filterMap (fun spec => spec.field_id)).contains fid) := by
      refine List.mem_filter.mpr ⟨?_, ?_⟩
      · exact List.mem_map.mpr ⟨f0, List.mem_filter.mpr ⟨hf0, by simp [hf0s]⟩, rfl⟩
      · rw [Bool.not_eq_true']
        exact contains_false_iff.mpr hf0not
    rw [Bool.not_eq_true', contains_false_iff] at hf'keep
    refine hf'keep ?_
    rw [hfid', heq]
    exact hto
  · rw [heq] at h
    exact Nat.lt_irrefl _ (Nat.lt_of_lt_of_le (hfresh f0 hf0) h)

/-- The reconciled and re-listed field set of the survey is exactly the
expected field list: one row per target entry, in submitted order. -/
theorem update_survey_fields_characterized (db : DB) (sid : Nat)
    (name : String) (active : Bool) (F : List FieldSpec)
    (hglobal : (db.surveyFields.map (fun f => f.field_id)).Nodup)
    (hfresh : ∀ f ∈ db.surveyFields, f.field_id < db.nextId)
    (hC : (F.filterMap (fun spec => spec.field_id)).Nodup)
    (hA : ∀ fid ∈ F.filterMap (fun spec => spec.field_id),
        ∃ f ∈ db.surveyFields, f.field_id = fid ∧ f.survey_id = sid) :
    get_survey_fields (update_survey db sid name active F) sid =
      (expectedFields sid 0 F db.nextId).1 := by
  set AD : List SurveyField := db.surveyFields.filter (fun f =>
      !((((db.surveyFields.filter (fun g => g.survey_id == sid)).map
          (fun g => g.field_id)).filter (fun fid =>
            !(F.filterMap (fun spec => spec.field_id)).contains fid)).contains
        f.field_id)) with hAD
  have hADmem : ∀ fid ∈ F.filterMap (fun spec => spec.field_id),
      ∃ f ∈ AD, f.field_id = fid ∧ f.survey_id = sid := by
    intro fid hfid
    rcases hA fid hfid with ⟨f, hf, hfid2, hfsv⟩
    refine ⟨f, ?_, hfid2, hfsv⟩
    rw [hAD]
    refine List.mem_filter.mpr ⟨hf, ?_⟩
    rw [Bool.not_eq_true']
    refine contains_false_iff.mpr ?_
    intro hmem
    rcases List.mem_filter.mp hmem with ⟨_, hng⟩
    rw [Bool.not_eq_true', contains_false_iff] at hng
    exact hng (hfid2 ▸ hfid)
  have hA2 : ∀ fid ∈ F.filterMap (fun spec => spec.field_id),
      fid ∈ AD.map (fun f => f.field_id) := by
    intro fid hfid
    rcases hADmem fid hfid with ⟨f, hf, hfid2, _⟩
    exact List.mem_map.mpr ⟨f, hf, hfid2⟩
  have hD2 : ∀ f ∈ AD, f.field_id < db.nextId := by
    intro f hf
    rw [hAD] at hf
    exact hfresh f (List.mem_filter.mp hf).1
  have hfields : (update_survey db sid name active F).surveyFields =
      AD.map (applySpecs 0 F) ++ (newList sid 0 F db.nextId).1 :=
    reconcileFields_eq sid F 0 AD db.nextId hA2 hD2
  have hget : get_survey_fields (update_survey db sid name active F) sid =
      List.insertionSort fieldLe
        (((update_survey db sid name active F).surveyFields).filter
          (fun f => f.survey_id == sid)) := rfl
  have hpg : ∀ x : SurveyField,
      ((applySpecs 0 F x).survey_id == sid) = (x.survey_id == sid) := by
    intro x
    rw [applySpecs_survey_id]
  have hnlf : (newList sid 0 F db.nextId).1.filter
      (fun f => f.survey_id == sid) = (newList sid 0 F db.nextId).1 := by
    refine List.filter_eq_self.mpr (fun f hf => ?_)
    rw [(newList_mem sid F 0 db.nextId f hf).1]
    exact beq_self_eq_true sid
  rw [hget, hfields, List.filter_append, filter_map_comm _ _ hpg, hnlf]
  have hsub : (AD.filter (fun f => f.survey_id == sid)).Sublist
      db.surveyFields := by
    refine (List.filter_sublist AD).trans ?_
    rw [hAD]
    exact List.filter_sublist _
  have hnodupret : ((AD.filter (fun f => f.survey_id == sid)).map
      (fun f => f.field_id)).Nodup :=
    List.Nodup.sublist (hsub.map _) hglobal
  have hiff : ∀ fid, fid ∈ (AD.filter (fun f => f.survey_id == sid)).map
      (fun f => f.field_id) ↔ fid ∈ F.filterMap (fun spec => spec.field_id) := by
    intro fid
    constructor
    · intro h
      rcases List.mem_map.mp h with ⟨f, hf, hfid⟩
      rcases List.mem_filter.mp hf with ⟨hfAD, hfsid⟩
      have hfsid' : f.survey_id = sid := by simpa using hfsid
      rw [hAD] at hfAD
      rcases List.mem_filter.mp hfAD with ⟨hfmem, hfkeep⟩
      rw [Bool.not_eq_true', contains_false_iff] at hfkeep
      by_contra hnot
      refine hfkeep ?_
      refine List.mem_filter.mpr ⟨?_, ?_⟩
      · exact List.mem_map.mpr ⟨f, List.mem_filter.mpr ⟨hfmem, by simp [hfsid']⟩, rfl⟩
      · rw [Bool.not_eq_true']
        refine contains_false_iff.mpr ?_
        rw [hfid]
        exact hnot
    · intro h
      rcases hADmem fid h with ⟨f, hf, hfid2, hfsv⟩
      exact List.mem_map.mpr
        ⟨f, List.mem_filter.mpr ⟨hf, by simp [hfsv]⟩, hfid2⟩
  have hperm1 : ((AD.filter (fun f => f.survey_id == sid)).map
      (fun f => f.field_id)).Perm (F.filterMap (fun spec => spec.field_id)) :=
    (List.perm_ext_iff_of_nodup hnodupret hC).mpr hiff
  have hmapeq : (AD.filter (fun f => f.survey_id == sid)).map (applySpecs 0 F) =
      ((AD.filter (fun f => f.survey_id == sid)).map (fun f => f.field_id)).map
        (buildExpected sid 0 F) := by
    rw [List.map_map]
    refine List.map_congr_left (fun f hf => ?_)
    have hfsid : f.survey_id = sid := by
      simpa using (List.mem_filter.mp hf).2
    have hfidmem : f.field_id ∈ F.filterMap (fun spec => spec.field_id) :=
      (hiff f.field_id).mp (List.mem_map.mpr ⟨f, hf, rfl⟩)
    rcases specAt_eq_some F 0 f.field_id hfidmem with ⟨spec, j, hat, hsome⟩
    rw [applySpecs_eq_updContent F 0 spec j f hC hat,
      updContent_eq_mkExpected sid spec j f hfsid]
    simp only [Function.comp, buildExpected, hat]
  have hperm2 : ((AD.filter (fun f => f.survey_id == sid)).map
      (applySpecs 0 F)).Perm (someExpected sid 0 F) := by
    rw [hmapeq, someExpected_eq_map sid F 0 hC]
    exact hperm1.map _
  have hperm3 : ((AD.filter (fun f => f.survey_id == sid)).map (applySpecs 0 F) ++
      (newList sid 0 F db.nextId).1).Perm (expectedFields sid 0 F db.nextId).1 :=
    (hperm2.append_right _).trans (expected_perm sid F 0 db.nextId).symm
  have hpermSort : (List.insertionSort fieldLe
      ((AD.filter (fun f => f.survey_id == sid)).map (applySpecs 0 F) ++
        (newList sid 0 F db.nextId).1)).Perm
      (expectedFields sid 0 F db.nextId).1 :=
    (List.perm_insertionSort fieldLe _).trans hperm3
  have hsortedE : List.Pairwise fieldLt (expectedFields sid 0 F db.nextId).1 :=
    expected_sorted sid F 0 db.nextId
  have hsortedLe : List.Pairwise fieldLe (List.insertionSort fieldLe
      ((AD.filter (fun f => f.survey_id == sid)).map (applySpecs 0 F) ++
        (newList sid 0 F db.nextId).1)) :=
    List.sorted_insertionSort fieldLe _
  have hneE : List.Pairwise (fun f g : SurveyField =>
      f.field_order ≠ g.field_order) (expectedFields sid 0 F db.nextId).1 :=
    hsortedE.imp (fun h => Nat.ne_of_lt h)
  have hneSort : List.Pairwise (fun f g : SurveyField =>
      f.field_order ≠ g.field_order) (List.insertionSort fieldLe
      ((AD.filter (fun f => f.survey_id == sid)).map (applySpecs 0 F) ++
        (newList sid 0 F db.nextId).1)) :=
    (List.Perm.pairwise_iff (fun h => Ne.symm h) hpermSort).mpr hneE
  have hsortedLt : List.Pairwise fieldLt (List.insertionSort fieldLe
      ((AD.filter (fun f => f.survey_id == sid)).map (applySpecs 0 F) ++
        (newList sid 0 F db.nextId).1)) :=
    (hsortedLe.and hneSort).imp (fun h => Nat.lt_of_le_of_ne h.1 h.2)
  exact List.eq_of_perm_of_sorted hpermSort hsortedLt hsortedE


end SurveyApp

namespace SurveyApp

/-- A required field whose submitted answer is falsy (or absent) contributes
its label to `check_required_fields`. -/
theorem mem_check_required {fields : List SurveyField}
    {answers : List (Nat × Answer)} {f0 : SurveyField} (hf0 : f0 ∈ fields)
    (hreq : f0.is_required = true)
    (hmiss : answerMissing answers f0.field_id = true) :
    f0.field_label ∈ check_required_fields fields answers := by
  unfold check_required_fields
  exact List.mem_map.mpr ⟨f0, List.mem_filter.mpr ⟨hf0, by simp [hreq, hmiss]⟩, rfl⟩

/-- A completed submission whose required-field check is non-empty is
rejected before any insert. -/
theorem process_missing_rejects (db : DB) (uid sid region : Nat)
    (fields : List SurveyField) (answers : List (Nat × Answer))
    (hne : check_required_fields fields answers ≠ []) :
    (process_survey_submission db uid sid region fields answers true).1 = db ∧
    (process_survey_submission db uid sid region fields answers true).2 =
      SubmissionResult.missingRequired (check_required_fields fields answers) := by
  have hb : (check_required_fields fields answers).isEmpty = false := by
    cases h : (check_required_fields fields answers).isEmpty
    · rfl
    · exact absurd (List.isEmpty_iff.mp h) hne
  unfold process_survey_submission
  simp [hb]

/-- C3 counterexample: calling `update_response_detail` on a concrete state
overwrites the detail's value yet appends no `AuditLog` row, refuting the
claim that every such call appends exactly one audit entry. -/
theorem C3_counterexample :
    (update_response_detail exC3db 1 "new").responseDetails ≠ exC3db.responseDetails ∧
    (update_response_detail exC3db 1 "new").auditLog = exC3db.auditLog ∧
    (update_response_detail exC3db 1 "new").auditLog.length ≠
      exC3db.auditLog.length + 1 := by
  decide

/-- C3 (amended): `update_response_detail` overwrites the targeted
`Response_Details` value in place and leaves the audit log untouched — no
`AuditLogEntry` is ever appended, by the call itself or by its callers. -/
theorem C3_update_answer_writes_no_audit (db : DB) (did : Nat) (v : String) :
    (update_response_detail db did v).auditLog = db.auditLog ∧
    (∀ rd ∈ (update_response_detail db did v).responseDetails,
        rd.detail_id = did → rd.answer_value = v) ∧
    (∀ rd ∈ db.responseDetails, rd.detail_id ≠ did →
        rd ∈ (update_response_detail db did v).responseDetails) := by
  refine ⟨rfl, ?_, ?_⟩
  · intro rd hrd hid
    rcases List.mem_map.mp hrd with ⟨rd0, _, heq⟩
    by_cases h0 : rd0.detail_id = did
    · rw [← heq]
      simp [h0]
    · rw [← heq] at hid
      simp [beq_eq_false_iff_ne.mpr h0] at hid
      exact absurd hid h0
  · intro rd hrd hne
    refine List.mem_map.mpr ⟨rd, hrd, ?_⟩
    simp [beq_eq_false_iff_ne.mpr hne]

/-- C3 witness: the amended statement evaluated on the concrete state. -/
theorem C3_update_answer_writes_no_audit_witness :
    (update_response_detail exC3db 1 "new").auditLog = exC3db.auditLog ∧
    (∀ rd ∈ (update_response_detail exC3db 1 "new").responseDetails,
        rd.detail_id = 1 → rd.answer_value = "new") ∧
    (∀ rd ∈ exC3db.responseDetails, rd.detail_id ≠ 1 →
        rd ∈ (update_response_detail exC3db 1 "new").responseDetails) :=
  C3_update_answer_writes_no_audit exC3db 1 "new"

/-- C7: adding a governorate whose name already exists fails and leaves the
state unchanged (the spec-modelled unique-name constraint rejects the
INSERT); a fresh name appends exactly one governorate row, and no health
administration references the fresh id, so the new governorate has no
children. -/
theorem C7_add_governorate (db : DB) (name desc : String)
    (hfresh : ∀ ha ∈ db.healthAdmins, ha.governorate_id ≠ db.nextId) :
    ((∃ g ∈ db.governorates, g.governorate_name = name) →
        add_governorate db name desc = (db, false)) ∧
    ((∀ g ∈ db.governorates, g.governorate_name ≠ name) →
        (add_governorate db name desc).2 = true ∧
        (add_governorate db name desc).1.governorates =
          db.governorates ++
            [{ governorate_id := db.nextId, governorate_name := name,
               description := desc }] ∧
        (add_governorate db name desc).1.healthAdmins.filter
            (fun ha => ha.governorate_id == db.nextId) = []) := by
  constructor
  · intro hdup
    have hb : db.governorates.any (fun g => g.governorate_name == name) = true := by
      rcases hdup with ⟨g, hg, hname⟩
      exact List.any_eq_true.mpr ⟨g, hg, by simp [hname]⟩
    unfold add_governorate
    simp [hb]
  · intro hno
    have hb : db.governorates.any (fun g => g.governorate_name == name) = false := by
      rw [Bool.eq_false_iff]
      intro hany
      rcases List.any_eq_true.mp hany with ⟨g, hg, hgn⟩
      exact hno g hg (by simpa using hgn)
    unfold add_governorate
    refine ⟨by simp [hb], by simp [hb], ?_⟩
    simp only [hb, Bool.false_eq_true, if_false]
    exact List.filter_eq_nil_iff.mpr (fun ha hha => by
      simp [hfresh ha hha])

/-- C7 witness: both branches evaluated on the concrete state — the
duplicate name "Cairo" is rejected, the fresh name "Alex" creates a
childless governorate. -/
theorem C7_add_governorate_witness :
    (add_governorate exC7db "Cairo" "d" = (exC7db, false)) ∧
    ((add_governorate exC7db "Alex" "d").2 = true ∧
      (add_governorate exC7db "Alex" "d").1.governorates =
        exC7db.governorates ++
          [{ governorate_id := exC7db.nextId, governorate_name := "Alex",
             description := "d" }] ∧
      (add_governorate exC7db "Alex" "d").1.healthAdmins.filter
          (fun ha => ha.governorate_id == exC7db.nextId) = []) :=
  ⟨(C7_add_governorate exC7db "Cairo" "d" (by decide)).1 (by decide),
   (C7_add_governorate exC7db "Alex" "d" (by decide)).2 (by decide)⟩

/-- C8: `delete_survey` removes exactly the details of the survey's
responses, the responses, the fields, the governorate links and the survey
row (the five DELETEs in source order), and every row of any other survey
survives. -/
theorem C8_delete_survey_cascade (db : DB) (sid : Nat) :
    (delete_survey db sid).responseDetails =
      db.responseDetails.filter (fun rd =>
        !((db.responses.filter (fun r => r.survey_id == sid)).map
            (fun r => r.response_id)).contains rd.response_id) ∧
    (delete_survey db sid).responses =
      db.responses.filter (fun r => !(r.survey_id == sid)) ∧
    (delete_survey db sid).surveyFields =
      db.surveyFields.filter (fun f => !(f.survey_id == sid)) ∧
    (delete_survey db sid).surveyGovernorate =
      db.surveyGovernorate.filter (fun sg => !(sg.1 == sid)) ∧
    (delete_survey db sid).surveys =
      db.surveys.filter (fun s => !(s.survey_id == sid)) ∧
    (∀ s ∈ db.surveys, s.survey_id ≠ sid → s ∈ (delete_survey db sid).surveys) ∧
    (∀ f ∈ db.surveyFields, f.survey_id ≠ sid →
        f ∈ (delete_survey db sid).surveyFields) ∧
    (∀ r ∈ db.responses, r.survey_id ≠ sid →
        r ∈ (delete_survey db sid).responses) ∧
    (∀ rd ∈ db.responseDetails,
        (∀ r ∈ db.responses, r.response_id = rd.response_id → r.survey_id ≠ sid) →
        rd ∈ (delete_survey db sid).responseDetails) ∧
    (∀ sg ∈ db.surveyGovernorate, sg.1 ≠ sid →
        sg ∈ (delete_survey db sid).surveyGovernorate) := by
  refine ⟨rfl, rfl, rfl, rfl, rfl, ?_, ?_, ?_, ?_, ?_⟩
  · intro s hs hne
    exact List.mem_filter.mpr ⟨hs, by simp [hne]⟩
  · intro f hf hne
    exact List.mem_filter.mpr ⟨hf, by simp [hne]⟩
  · intro r hr hne
    exact List.mem_filter.mpr ⟨hr, by simp [hne]⟩
  · intro rd hrd hr
    refine List.mem_filter.mpr ⟨hrd, ?_⟩
    simp only [List.contains_eq_any_beq, Bool.not_eq_true', List.any_eq_false]
    intro x hx
    rcases List.mem_map.mp hx with ⟨r0, hr0mem, hr0id⟩
    rcases List.mem_filter.mp hr0mem with ⟨hr0, hr0s⟩
    intro hbeq
    exact hr r0 hr0 (hr0id.trans (beq_iff_eq.mp hbeq).symm) (by simpa using hr0s)
  · intro sg hsg hne
    exact List.mem_filter.mpr ⟨hsg, by simp [hne]⟩

/-- In a survey list with no duplicate ids, filtering by the id of a member
yields exactly that member. -/
theorem filter_key_singleton {l : List Survey}
    (hnd : (l.map (fun s => s.survey_id)).Nodup) {s : Survey} (hs : s ∈ l) :
    l.filter (fun t => t.survey_id == s.survey_id) = [s] := by
  induction l with
  | nil => cases hs
  | cons t rest ih =>
    have hnd' : (t.survey_id :: rest.map (fun s => s.survey_id)).Nodup := by
      simpa using hnd
    rcases List.nodup_cons.mp hnd' with ⟨hnot, hrest⟩
    rcases List.mem_cons.mp hs with hst | hsrest
    · subst hst
      have hrestnil : rest.filter (fun x => x.survey_id == s.survey_id) = [] := by
        refine List.filter_eq_nil_iff.mpr (fun r hr hbeq => ?_)
        exact hnot (List.mem_map.mpr ⟨r, hr, beq_iff_eq.mp hbeq⟩)
      simp [List.filter_cons, hrestnil]
    · have hne : (t.survey_id == s.survey_id) = false := by
        rw [beq_eq_false_iff_ne]
        intro heq
        refine hnot ?_
        rw [heq]
        exact List.mem_map.mpr ⟨s, hsrest, rfl⟩
      rw [List.filter_cons, if_neg (by simp [hne])]
      exact ih hrest hsrest

/-- The grant listing after a wholesale grant update, reduced over the
requested survey-id list. -/
theorem grants_fst (db : DB) (sids : List Nat)
    (hnd : (db.surveys.map (fun s => s.survey_id)).Nodup)
    (hex : ∀ sid ∈ sids, ∃ s ∈ db.surveys, s.survey_id = sid) :
    (sids.flatMap (fun sid =>
        (db.surveys.filter (fun s => s.survey_id == sid)).map
          (fun s => (s.survey_id, s.survey_name)))).map Prod.fst = sids := by
  induction sids with
  | nil => rfl
  | cons sid rest ih =>
    rcases hex sid (List.mem_cons_self sid rest) with ⟨s, hs, hsid⟩
    have hfilter : db.surveys.filter (fun t => t.survey_id == sid) = [s] := by
      rw [← hsid]
      exact filter_key_singleton hnd hs
    simp only [List.flatMap_cons, List.map_append, hfilter, List.map_cons,
      List.map_nil]
    rw [ih (fun x hx => hex x (List.mem_cons_of_mem _ hx))]
    simp [hsid]

/-- C10: a wholesale grant update followed by the grant listing returns
exactly the requested survey ids (the previous grant rows of the user are
deleted first, so nothing is merged), and every other user's grant listing is
untouched. -/
theorem C10_grants_replaced_wholesale (db : DB) (uid : Nat) (sids : List Nat)
    (hnd : (db.surveys.map (fun s => s.survey_id)).Nodup)
    (hex : ∀ sid ∈ sids, ∃ s ∈ db.surveys, s.survey_id = sid) :
    (get_user_allowed_surveys (update_user_allowed_surveys db uid sids) uid).map
        Prod.fst = sids ∧
    (∀ uid', uid' ≠ uid →
      get_user_allowed_surveys (update_user_allowed_surveys db uid sids) uid' =
        get_user_allowed_surveys db uid') := by
  constructor
  · unfold get_user_allowed_surveys update_user_allowed_surveys
    simp only [List.filter_append, List.filter_filter]
    have h1 : db.userSurveys.filter
        (fun us => (us.1 == uid) && !(us.1 == uid)) = [] := by
      refine List.filter_eq_nil_iff.mpr (fun us _ => ?_)
      cases h : us.1 == uid <;> simp [h]
    have h2 : (sids.map (fun sid => (uid, sid))).filter
        (fun us => us.1 == uid) = sids.map (fun sid => (uid, sid)) := by
      refine List.filter_eq_self.mpr (fun a ha => ?_)
      rcases List.mem_map.mp ha with ⟨sid, _, hsid⟩
      rw [← hsid]
      exact beq_self_eq_true uid
    rw [h1, h2, List.nil_append, List.flatMap_map]
    exact grants_fst db sids hnd hex
  · intro uid' hne
    unfold get_user_allowed_surveys update_user_allowed_surveys
    simp only [List.filter_append, List.filter_filter]
    have h1 : db.userSurveys.filter
        (fun us => (us.1 == uid') && !(us.1 == uid)) =
        db.userSurveys.filter (fun us => us.1 == uid') := by
      refine List.filter_congr (fun us _ => ?_)
      cases h : us.1 == uid'
      · simp
      · have : (us.1 == uid) = false := by
          rw [beq_eq_false_iff_ne, beq_iff_eq.mp h]
          exact hne
        simp [this]
    have h2 : (sids.map (fun sid => (uid, sid))).filter
        (fun us => us.1 == uid') = [] := by
      refine List.filter_eq_nil_iff.mpr (fun a ha => ?_)
      rcases List.mem_map.mp ha with ⟨sid, _, hsid⟩
      rw [← hsid]
      simp [beq_eq_false_iff_ne.mpr (Ne.symm hne)]
    rw [h1, h2, List.append_nil]

/-- C10 witness: the wholesale replacement evaluated on a concrete state with
a stale prior grant. -/
theorem C10_grants_replaced_wholesale_witness :
    (exC10db.surveys.map (fun s => s.survey_id)).Nodup ∧
    (∀ sid ∈ [1, 2], ∃ s ∈ exC10db.surveys, s.survey_id = sid) ∧
    ((get_user_allowed_surveys (update_user_allowed_surveys exC10db 1 [1, 2]) 1).map
        Prod.fst = [1, 2] ∧
     (∀ uid', uid' ≠ 1 →
       get_user_allowed_surveys (update_user_allowed_surveys exC10db 1 [1, 2]) uid' =
         get_user_allowed_surveys exC10db uid')) :=
  ⟨by decide, by decide,
   C10_grants_replaced_wholesale exC10db 1 [1, 2] (by decide) (by decide)⟩

/-- C2: when a completed response of this user for this survey already exists
today, a submission flagged completed is rejected — the state is returned
unchanged (no `Responses` row and no `Response_Details` rows are inserted)
and the outcome is `alreadyCompleted` whenever the required-field check
passes (a missing required field is reported first, still with no insert). -/
theorem C2_once_per_day (db : DB) (uid sid region : Nat)
    (fields : List SurveyField) (answers : List (Nat × Answer))
    (h : has_completed_survey_today db uid sid = true) :
    (process_survey_submission db uid sid region fields answers true).1 = db ∧
    (process_survey_submission db uid sid region fields answers true).2 ≠
      SubmissionResult.saved true ∧
    (check_required_fields fields answers = [] →
      (process_survey_submission db uid sid region fields answers true).2 =
        SubmissionResult.alreadyCompleted) := by
  by_cases hm : check_required_fields fields answers = []
  · have hb : (check_required_fields fields answers).isEmpty = true :=
      List.isEmpty_iff.mpr hm
    unfold process_survey_submission
    simp [hb, h]
  · rcases process_missing_rejects db uid sid region fields answers hm with ⟨h1, h2⟩
    refine ⟨h1, ?_, fun hc => absurd hc hm⟩
    rw [h2]
    simp

/-- C2 witness: the per-day guard evaluated on a state holding a completed
response of user 1 for survey 5 dated today. -/
theorem C2_once_per_day_witness :
    has_completed_survey_today exC2db 1 5 = true ∧
    ((process_survey_submission exC2db 1 5 2 [] [] true).1 = exC2db ∧
     (process_survey_submission exC2db 1 5 2 [] [] true).2 ≠
       SubmissionResult.saved true ∧
     (check_required_fields [] [] = [] →
       (process_survey_submission exC2db 1 5 2 [] [] true).2 =
         SubmissionResult.alreadyCompleted)) :=
  ⟨by decide, C2_once_per_day exC2db 1 5 2 [] [] (by decide)⟩

/-- C6: a completed submission with a required field whose answer is empty or
absent is rejected with the missing labels (the offending field's label among
them) and leaves the state unchanged: no `Responses` row and no
`Response_Details` rows are created. -/
theorem C6_missing_required_rejects (db : DB) (uid sid region : Nat)
    (fields : List SurveyField) (answers : List (Nat × Answer))
    (f0 : SurveyField) (hf0 : f0 ∈ fields) (hreq : f0.is_required = true)
    (hmiss : answerMissing answers f0.field_id = true) :
    (process_survey_submission db uid sid region fields answers true).1 = db ∧
    (process_survey_submission db uid sid region fields answers true).2 =
      SubmissionResult.missingRequired (check_required_fields fields answers) ∧
    f0.field_label ∈ check_required_fields fields answers := by
  have hmem := mem_check_required hf0 hreq hmiss
  have hne : check_required_fields fields answers ≠ [] := by
    intro hnil
    rw [hnil] at hmem
    cases hmem
  rcases process_missing_rejects db uid sid region fields answers hne with ⟨h1, h2⟩
  exact ⟨h1, h2, hmem⟩

/-- C6 witness: an empty text answer for a required field on a concrete
state. -/
theorem C6_missing_required_rejects_witness :
    exC6field ∈ [exC6field] ∧ exC6field.is_required = true ∧
    answerMissing [(1, Answer.aText "")] exC6field.field_id = true ∧
    ((process_survey_submission emptyDB 1 5 2 [exC6field]
        [(1, Answer.aText "")] true).1 = emptyDB ∧
     (process_survey_submission emptyDB 1 5 2 [exC6field]
        [(1, Answer.aText "")] true).2 =
       SubmissionResult.missingRequired
         (check_required_fields [exC6field] [(1, Answer.aText "")]) ∧
     exC6field.field_label ∈
       check_required_fields [exC6field] [(1, Answer.aText "")]) :=
  ⟨by decide, by decide, by decide,
   C6_missing_required_rejects emptyDB 1 5 2 [exC6field] [(1, Answer.aText "")]
     exC6field (by decide) (by decide) (by decide)⟩

/-- C9: the required-field presence check uses Python truthiness, so an
absent answer, the empty string, an unchecked checkbox (`False`) and the
number 0 all count as missing — a completed submission carrying such an
answer for a required field is rejected listing that field's label — while a
date is never falsy. -/
theorem C9_falsy_answers_count_as_missing (db : DB) (uid sid region : Nat)
    (fields : List SurveyField) (answers : List (Nat × Answer))
    (f0 : SurveyField) (hf0 : f0 ∈ fields) (hreq : f0.is_required = true)
    (hfalsy : pyGet answers f0.field_id = none ∨
      pyGet answers f0.field_id = some (Answer.aText "") ∨
      pyGet answers f0.field_id = some (Answer.aBool false) ∨
      pyGet answers f0.field_id = some (Answer.aNum 0)) :
    f0.field_label ∈ check_required_fields fields answers ∧
    (process_survey_submission db uid sid region fields answers true).1 = db ∧
    (process_survey_submission db uid sid region fields answers true).2 =
      SubmissionResult.missingRequired (check_required_fields fields answers) ∧
    pyFalsy (Answer.aBool false) = true ∧ pyFalsy (Answer.aNum 0) = true ∧
    pyFalsy (Answer.aText "") = true ∧ pyFalsy Answer.aNone = true ∧
    (∀ d, pyFalsy (Answer.aDate d) = false) := by
  have hmiss : answerMissing answers f0.field_id = true := by
    unfold answerMissing
    rcases hfalsy with h | h | h | h <;> rw [h] <;> rfl
  have hmem := mem_check_required hf0 hreq hmiss
  have hne : check_required_fields fields answers ≠ [] := by
    intro hnil
    rw [hnil] at hmem
    cases hmem
  rcases process_missing_rejects db uid sid region fields answers hne with ⟨h1, h2⟩
  exact ⟨hmem, h1, h2, rfl, rfl, rfl, rfl, fun _ => rfl⟩

/-- C9 witness: an unchecked checkbox (`False`, a genuine answer) for a
required field is treated as missing on a concrete state. -/
theorem C9_falsy_answers_count_as_missing_witness :
    exC9field ∈ [exC9field] ∧ exC9field.is_required = true ∧
    pyGet [(2, Answer.aBool false)] exC9field.field_id =
      some (Answer.aBool false) ∧
    (exC9field.field_label ∈
        check_required_fields [exC9field] [(2, Answer.aBool false)] ∧
     (process_survey_submission emptyDB 1 5 2 [exC9field]
        [(2, Answer.aBool false)] true).1 = emptyDB ∧
     (process_survey_submission emptyDB 1 5 2 [exC9field]
        [(2, Answer.aBool false)] true).2 =
       SubmissionResult.missingRequired
         (check_required_fields [exC9field] [(2, Answer.aBool false)]) ∧
     pyFalsy (Answer.aBool false) = true ∧ pyFalsy (Answer.aNum 0) = true ∧
     pyFalsy (Answer.aText "") = true ∧ pyFalsy Answer.aNone = true ∧
     (∀ d, pyFalsy (Answer.aDate d) = false)) :=
  ⟨by decide, by decide, by decide,
   C9_falsy_answers_count_as_missing emptyDB 1 5 2 [exC9field]
     [(2, Answer.aBool false)] exC9field (by decide) (by decide)
     (Or.inr (Or.inr (Or.inl (by decide))))⟩

/-- C1 counterexample: on a concrete state, survey 10 is active and employee
1 holds an explicit `UserSurveys` grant for it, so the claimed visibility
rule makes it visible; yet the dashboard listing `get_allowed_surveys` (the
only listing `show_employee_dashboard` consults) does not return it, because
the listing never consults grants. -/
theorem C1_counterexample :
    employeeSurveyVisibleSpec exC1db 1 10 ∧
    10 ∉ (get_allowed_surveys exC1db 1).map Prod.fst := by
  decide

/-- C1 (amended): a survey appears in the employee dashboard listing iff it
is active and its governorate-link set contains the employee's governorate
(derived via the health administration); explicit `UserSurveys` grants play
no part in the listing. -/
theorem C1_employee_visibility (db : DB) (uid sid : Nat) :
    sid ∈ (get_allowed_surveys db uid).map Prod.fst ↔
      ((∃ s ∈ db.surveys, s.survey_id = sid ∧ s.is_active = true) ∧
       ∃ u ∈ db.users, u.user_id = uid ∧
         ∃ ha ∈ db.healthAdmins, u.assigned_region = some ha.admin_id ∧
           (sid, ha.governorate_id) ∈ db.surveyGovernorate) := by
  constructor
  · intro h
    rcases List.mem_map.mp h with ⟨p, hp, hfst⟩
    rcases List.mem_flatMap.mp hp with ⟨u, hu, hp2⟩
    rcases List.mem_flatMap.mp hp2 with ⟨ha, hha, hp3⟩
    rcases List.mem_flatMap.mp hp3 with ⟨sg, hsg, hp4⟩
    rcases List.mem_map.mp hp4 with ⟨s, hsmem, hps⟩
    rcases List.mem_filter.mp hu with ⟨humem, huid⟩
    rcases List.mem_filter.mp hha with ⟨hhamem, hhareg⟩
    rcases List.mem_filter.mp hsg with ⟨hsgmem, hsggov⟩
    rcases List.mem_filter.mp hsmem with ⟨hsmem', hsprop⟩
    have hsprops : s.survey_id = sg.1 ∧ s.is_active = true := by
      simpa using hsprop
    rcases hsprops with ⟨hsid', hact⟩
    have hpsid : s.survey_id = sid := by
      rw [← hfst, ← hps]
    refine ⟨⟨s, hsmem', hpsid, hact⟩,
      u, humem, beq_iff_eq.mp huid, ha, hhamem, ?_, ?_⟩
    · simpa using hhareg
    · have hgov : sg.2 = ha.governorate_id := beq_iff_eq.mp hsggov
      have : sg = (sid, ha.governorate_id) := by
        rw [← hpsid, hsid', ← hgov]
      rw [← this]
      exact hsgmem
  · rintro ⟨⟨s, hs, hsid, hact⟩, u, hu, huid, ha, hha, hreg, hlink⟩
    refine List.mem_map.mpr ⟨(s.survey_id, s.survey_name), ?_, hsid⟩
    refine List.mem_flatMap.mpr ⟨u, List.mem_filter.mpr ⟨hu, by simp [huid]⟩, ?_⟩
    refine List.mem_flatMap.mpr
      ⟨ha, List.mem_filter.mpr ⟨hha, by simp [hreg]⟩, ?_⟩
    refine List.mem_flatMap.mpr
      ⟨(sid, ha.governorate_id), List.mem_filter.mpr ⟨hlink, by simp⟩, ?_⟩
    refine List.mem_map.mpr ⟨s, List.mem_filter.mpr ⟨hs, ?_⟩, rfl⟩
    simp [hsid, hact]

/-- C8 witness: the cascade evaluated on a concrete two-survey state. -/
theorem C8_delete_survey_cascade_witness :
    (delete_survey exC8db 1).responseDetails =
      exC8db.responseDetails.filter (fun rd =>
        !((exC8db.responses.filter (fun r => r.survey_id == 1)).map
            (fun r => r.response_id)).contains rd.response_id) ∧
    (delete_survey exC8db 1).responses =
      exC8db.responses.filter (fun r => !(r.survey_id == 1)) ∧
    (delete_survey exC8db 1).surveyFields =
      exC8db.surveyFields.filter (fun f => !(f.survey_id == 1)) ∧
    (delete_survey exC8db 1).surveyGovernorate =
      exC8db.surveyGovernorate.filter (fun sg => !(sg.1 == 1)) ∧
    (delete_survey exC8db 1).surveys =
      exC8db.surveys.filter (fun s => !(s.survey_id == 1)) ∧
    (∀ s ∈ exC8db.surveys, s.survey_id ≠ 1 → s ∈ (delete_survey exC8db 1).surveys) ∧
    (∀ f ∈ exC8db.surveyFields, f.survey_id ≠ 1 →
        f ∈ (delete_survey exC8db 1).surveyFields) ∧
    (∀ r ∈ exC8db.responses, r.survey_id ≠ 1 →
        r ∈ (delete_survey exC8db 1).responses) ∧
    (∀ rd ∈ exC8db.responseDetails,
        (∀ r ∈ exC8db.responses, r.response_id = rd.response_id → r.survey_id ≠ 1) →
        rd ∈ (delete_survey exC8db 1).responseDetails) ∧
    (∀ sg ∈ exC8db.surveyGovernorate, sg.1 ≠ 1 →
        sg ∈ (delete_survey exC8db 1).surveyGovernorate) :=
  C8_delete_survey_cascade exC8db 1

/-- C4: after `update_survey`, listing the survey's fields returns exactly the
entries of the target list in submitted order — one row per entry, each row's
order index equal to its 0-based position (update or insert alike), entries
carrying an existing field id keeping that id — and the survey's fields
absent from the target list are removed.  The hypotheses state database
well-formedness: globally unique field ids below the fresh-id counter,
distinct target ids, and every target id naming an existing field of this
survey. -/
theorem C4_reconcile_fields_match_target (db : DB) (sid : Nat) (name : String)
    (active : Bool) (F : List FieldSpec)
    (hglobal : (db.surveyFields.map (fun f => f.field_id)).Nodup)
    (hfresh : ∀ f ∈ db.surveyFields, f.field_id < db.nextId)
    (hC : (F.filterMap (fun spec => spec.field_id)).Nodup)
    (hA : ∀ fid ∈ F.filterMap (fun spec => spec.field_id),
        ∃ f ∈ db.surveyFields, f.field_id = fid ∧ f.survey_id = sid) :
    (get_survey_fields (update_survey db sid name active F) sid).length =
      F.length ∧
    (∀ i spec, F.get? i = some spec →
      ∃ f, (get_survey_fields (update_survey db sid name active F) sid).get? i =
          some f ∧
        f.field_order = i ∧ f.field_label = spec.field_label ∧
        f.field_type = spec.field_type ∧ f.is_required = spec.is_required ∧
        f.field_options = storedOptions spec.field_options ∧
        (∀ fid, spec.field_id = some fid → f.field_id = fid)) ∧
    (∀ f0 ∈ db.surveyFields, f0.survey_id = sid →
      f0.field_id ∉ F.filterMap (fun spec => spec.field_id) →
      ∀ g ∈ (update_survey db sid name active F).surveyFields,
        g.field_id ≠ f0.field_id) := by
  have hchar := update_survey_fields_characterized db sid name active F
    hglobal hfresh hC hA
  refine ⟨?_, ?_, update_survey_removes db sid name active F hfresh⟩
  · rw [hchar]
    exact expected_length sid F 0 db.nextId
  · intro i spec hspec
    rcases expected_get sid F 0 db.nextId i spec hspec with
      ⟨f, h1, h2, h3, h4, h5, h6, _, h8⟩
    refine ⟨f, by rw [hchar]; exact h1, ?_, h3, h4, h5, h6, h8⟩
    rw [h2]
    exact Nat.zero_add i

/-- C4 witness: the reconciliation contract evaluated on a concrete survey
with one retained field and one insert. -/
theorem C4_reconcile_fields_match_target_witness :
    (exC4db.surveyFields.map (fun f => f.field_id)).Nodup ∧
    (∀ f ∈ exC4db.surveyFields, f.field_id < exC4db.nextId) ∧
    (exC4F.filterMap (fun spec => spec.field_id)).Nodup ∧
    (∀ fid ∈ exC4F.filterMap (fun spec => spec.field_id),
        ∃ f ∈ exC4db.surveyFields, f.field_id = fid ∧ f.survey_id = 1) ∧
    ((get_survey_fields (update_survey exC4db 1 "S2" true exC4F) 1).length =
        exC4F.length ∧
     (∀ i spec, exC4F.get? i = some spec →
        ∃ f, (get_survey_fields (update_survey exC4db 1 "S2" true exC4F) 1).get? i =
            some f ∧
          f.field_order = i ∧ f.field_label = spec.field_label ∧
          f.field_type = spec.field_type ∧ f.is_required = spec.is_required ∧
          f.field_options = storedOptions spec.field_options ∧
          (∀ fid, spec.field_id = some fid → f.field_id = fid)) ∧
     (∀ f0 ∈ exC4db.surveyFields, f0.survey_id = 1 →
        f0.field_id ∉ exC4F.filterMap (fun spec => spec.field_id) →
        ∀ g ∈ (update_survey exC4db 1 "S2" true exC4F).surveyFields,
          g.field_id ≠ f0.field_id)) :=
  ⟨by decide, by decide, by decide, by decide,
   C4_reconcile_fields_match_target exC4db 1 "S2" true exC4F (by decide)
     (by decide) (by decide) (by decide)⟩

/-- C5 counterexample: field 1 of survey 1 is referenced by a response
detail, the target list omits it, yet `update_survey` deletes it anyway (no
`FieldInUse` rejection exists in the code) and leaves the referencing detail
orphaned in place. -/
theorem C5_counterexample :
    (∃ rd ∈ exC5db.responseDetails, rd.field_id = 1) ∧
    (∃ f ∈ exC5db.surveyFields, f.field_id = 1 ∧ f.survey_id = 1) ∧
    (1 ∉ exC4F.filterMap (fun spec => spec.field_id)) ∧
    (∀ g ∈ (update_survey exC5db 1 "S" true exC4F).surveyFields,
        g.field_id ≠ 1) ∧
    (update_survey exC5db 1 "S" true exC4F).responseDetails =
      exC5db.responseDetails := by
  decide

/-- C5 (amended): when the target list omits an existing field, the
reconciliation deletes it unconditionally — whether or not any ResponseDetail
references it — and no `FieldInUse` check exists; the referencing
ResponseDetail rows are not touched (they are left orphaned). -/
theorem C5_omitted_fields_deleted_unconditionally (db : DB) (sid : Nat)
    (name : String) (active : Bool) (F : List FieldSpec)
    (hfresh : ∀ f ∈ db.surveyFields, f.field_id < db.nextId) :
    (update_survey db sid name active F).responseDetails = db.responseDetails ∧
    (∀ f0 ∈ db.surveyFields, f0.survey_id = sid →
      f0.field_id ∉ F.filterMap (fun spec => spec.field_id) →
      ∀ g ∈ (update_survey db sid name active F).surveyFields,
        g.field_id ≠ f0.field_id) :=
  ⟨rfl, update_survey_removes db sid name active F hfresh⟩

/-- C5 witness: the amended statement evaluated on the concrete state with a
referenced omitted field. -/
theorem C5_omitted_fields_deleted_unconditionally_witness :
    (∀ f ∈ exC5db.surveyFields, f.field_id < exC5db.nextId) ∧
    ((update_survey exC5db 1 "S" true exC4F).responseDetails =
        exC5db.responseDetails ∧
     (∀ f0 ∈ exC5db.surveyFields, f0.survey_id = 1 →
        f0.field_id ∉ exC4F.filterMap (fun spec => spec.field_id) →
        ∀ g ∈ (update_survey exC5db 1 "S" true exC4F).surveyFields,
          g.field_id ≠ f0.field_id)) :=
  ⟨by decide,
   C5_omitted_fields_deleted_unconditionally exC5db 1 "S" true exC4F (by decide)⟩

end SurveyApp
